import Mathlib

/-!
Verification of the Form-automation engine (field discovery, label mapping,
guarded interaction, fill orchestration).

The JavaScript source is shallowly embedded: pure computations (the label
scorer, option matching, time parsing, the label→field map discipline, the
type-priority sort) are translated function-by-function; DOM reads and
browser effects are modeled as explicit oracle parameters (functions
supplied by the environment), and DOM writes as explicit traces of
operations.  JavaScript strings are Lean `String`s, but every string
operation used by the source (`toLowerCase`, `trim`, `includes`, `split`,
`padStart`, `slice`, `parseInt`) is re-implemented here by structural
recursion over the character list so that all definitions evaluate inside
the kernel.  JavaScript objects / `Map`s keyed by strings are association
lists with insertion-order semantics: assigning to an existing key replaces
the value in place (keeping the original position), assigning to a fresh key
appends — exactly the enumeration-order behavior of JS objects and `Map`s.
-/

namespace FormAutomation

/-! ### JavaScript string primitives (character-level, kernel-computable) -/

/-- ASCII lowercasing of one character, as `String.prototype.toLowerCase`
acts on the ASCII range (all inputs in this code base are ASCII). -/
def lowerChar (c : Char) : Char :=
  if 'A' ≤ c ∧ c ≤ 'Z' then Char.ofNat (c.toNat + 32) else c

/-- Character class `[a-z0-9]` (the source always lowercases first). -/
def isAlnumChar (c : Char) : Bool :=
  decide (('a' ≤ c ∧ c ≤ 'z') ∨ ('0' ≤ c ∧ c ≤ '9'))

/-- JS `s.toLowerCase()`. -/
def jsLower (s : String) : String :=
  String.mk (s.data.map lowerChar)

/-- JS whitespace for `trim` (ASCII subset). -/
def isJsWsChar (c : Char) : Bool :=
  c == ' ' || c == '\t' || c == '\n' || c == '\r'

/-- JS `s.trim()`. -/
def jsTrim (s : String) : String :=
  String.mk (((s.data.dropWhile isJsWsChar).reverse.dropWhile isJsWsChar).reverse)

/-- Boolean list-prefix test. -/
def listStarts : List Char → List Char → Bool
  | [], _ => true
  | _ :: _, [] => false
  | a :: as, b :: bs => a == b && listStarts as bs

/-- Boolean contiguous-sublist test. -/
def listInfix (sub : List Char) : List Char → Bool
  | [] => sub.isEmpty
  | c :: t => listStarts sub (c :: t) || listInfix sub t

/-- JS `s.includes(sub)` (note `s.includes("")` is `true`, as in JS). -/
def jsIncludes (s sub : String) : Bool :=
  listInfix sub.data s.data

/-- Splitting a character list at every character satisfying `p`; empty
pieces are kept, matching JS `String.prototype.split` with a one-character
class regex (`"".split` gives `[""]`, `"a--b"` gives `["a","","b"]`). -/
def splitPred (p : Char → Bool) : List Char → List (List Char)
  | [] => [[]]
  | c :: t =>
    if p c then [] :: splitPred p t
    else match splitPred p t with
      | h :: t2 => (c :: h) :: t2
      | [] => [[c]]

/-- JS `s.split(sep)` for a one-character separator. -/
def jsSplitChar (sep : Char) (s : String) : List String :=
  (splitPred (fun c => c == sep) s.data).map String.mk

/-- JS `s.split(/[^a-z0-9]/)`. -/
def splitNonAlnum (s : String) : List String :=
  (splitPred (fun c => !(isAlnumChar c)) s.data).map String.mk

/-- JS `s.padStart(n, c)`. -/
def jsPadStart (n : Nat) (c : Char) (s : String) : String :=
  if n ≤ s.length then s else String.mk (List.replicate (n - s.length) c ++ s.data)

/-- JS `s.slice(0, n)`. -/
def jsSliceTo (n : Nat) (s : String) : String :=
  String.mk (s.data.take n)

/-- JS `parseInt(s, 10)`: optional sign, then leading decimal digits;
`none` models `NaN`. -/
def jsParseInt (s : String) : Option Int :=
  let t := s.data.dropWhile isJsWsChar
  let signRest : Int × List Char :=
    match t with
    | '-' :: r => (-1, r)
    | '+' :: r => (1, r)
    | r => (1, r)
  let digits := signRest.2.takeWhile (fun c => decide ('0' ≤ c ∧ c ≤ '9'))
  if digits.isEmpty then none
  else some (signRest.1 * digits.foldl (fun n c => n * 10 + ((c.toNat : Int) - 48)) 0)

/-- JS object / `Map` assignment `m[k] = v`: replace the (unique) existing
binding in place when the key is present — keeping its original position,
as JS enumeration order does — otherwise append.  All maps in this
development are built from `[]` through `jsSet`, so keys are unique and
"replace the first occurrence" is exactly the JS behavior. -/
def jsSet {α : Type} (m : List (String × α)) (k : String) (v : α) : List (String × α) :=
  match m with
  | [] => [(k, v)]
  | p :: rest => if p.1 == k then (k, v) :: rest else p :: jsSet rest k v

/-! ### Label mapper (`src/backend/mcp/system.js`, `mapFieldsToUserData`,
lines 173–232)

`MField` is the mapper's view of a detected field.  `matchedKey` and
`mappingTarget` are the ad-hoc annotation slots the source writes onto the
field objects (`field.matchedKey = bestKey; field.mappingTarget = mapKey`);
they start out absent.  A missing `field.name` / `field.selector` is the
empty string (the source's `normalize` and `||` treat `undefined` and `""`
alike as falsy). -/

structure MField where
  label : String
  name : String
  type : String
  selector : String
  matchedKey : Option String := none
  mappingTarget : Option String := none
deriving DecidableEq, Repr

/-- The mapper's `normalize`: `s ? s.toLowerCase().replace(/[^a-z0-9]/g, '') : ''`
(system.js line 174). -/
def normalize (s : String) : String :=
  String.mk ((s.data.map lowerChar).filter isAlnumChar)

/-- Score of one (field, key) pair (system.js lines 181–214), translated
condition-for-condition in source order.  Note that `fLabelRaw` is the raw
lowercased label (no trim, no stripping), that the `.split(/[^a-z0-9]/)`
token computation runs on the already-normalized (separator-free) strings,
and that the dead `finalSelector` local of line 215 is omitted. -/
def computeScore (field : MField) (key : String) : Int :=
  let fLabel := normalize field.label
  let fName := normalize field.name
  let fLabelRaw := jsLower field.label
  let normKey := normalize key
  let score : Int := 0
  let score := if fName == normKey then score + 100 else score
  let score := if fLabel == normKey then score + 100 else score
  let score := if jsIncludes fLabel "first" && jsIncludes normKey "first" then score + 50 else score
  let score := if jsIncludes fLabel "last" && jsIncludes normKey "last" then score + 50 else score
  let score := if jsIncludes fLabel "first" && jsIncludes normKey "last" then score - 100 else score
  let score := if jsIncludes fLabel "last" && jsIncludes normKey "first" then score - 100 else score
  let score := if jsIncludes fLabel normKey || jsIncludes normKey fLabel then score + 20 else score
  let fTokens := (splitNonAlnum fLabel).filter (fun t => 2 < t.length)
  let kTokens := (splitNonAlnum normKey).filter (fun t => 2 < t.length)
  let overlap := fTokens.filter (fun t => kTokens.contains t)
  let score := if 0 < overlap.length then score + (overlap.length : Int) * 15 else score
  let score := if jsIncludes fLabelRaw "mobile" && jsIncludes normKey "mobile" then score + 200 else score
  let score := if fLabelRaw == "gender" && normKey == "gender" then score + 200 else score
  let score := if fLabelRaw == "hobbies" && normKey == "hobbies" then score + 200 else score
  let score := if field.type == "radio-group" && jsIncludes normKey "hobbies" then score - 500 else score
  let score := if field.type == "checkbox-group" && jsIncludes normKey "gender" then score - 500 else score
  score

/-- One iteration of the inner best-key loop of `mapFieldsToUserData`
(lines 185–221): `bestKey`/`bestScore` are replaced only on a strictly
greater score (`if (score > bestScore)`). -/
def chooseStep (field : MField) (acc : Option String × Int) (key : String) :
    Option String × Int :=
  let score := computeScore field key
  if acc.2 < score then (some key, score) else acc

/-- The inner best-key loop of `mapFieldsToUserData` (lines 178–221):
`bestKey`/`bestScore` start as `null`/`0`. -/
def chooseBest (field : MField) (keys : List String) : Option String × Int :=
  keys.foldl (chooseStep field) (none, 0)

/-- The acceptance gate of lines 223–229: the field maps to `bestKey` iff
`bestKey` is non-null and `bestScore >= 40`. -/
def fieldChoice (field : MField) (keys : List String) : Option String :=
  match chooseBest field keys with
  | (some k, s) => if 40 ≤ s then some k else none
  | (none, _) => none

/-- The mapping key of a field: `field.selector || ` `"group-" + label`
(line 225). -/
def mapKeyOf (field : MField) : String :=
  if field.selector ≠ "" then field.selector else "group-" ++ field.label

/-- The body of the outer per-field loop of `mapFieldsToUserData`
(lines 177–230): run the best-key loop, and when `bestKey` is non-null and
`bestScore >= 40`, record `mapping[mapKey] = bestKey` and annotate the
field in place. -/
def mapFieldsStep (userDataKeys : List String)
    (acc : List (String × String) × List MField) (field : MField) :
    List (String × String) × List MField :=
  match chooseBest field userDataKeys with
  | (some bestKey, bestScore) =>
    if 40 ≤ bestScore then
      let mapKey := mapKeyOf field
      (jsSet acc.1 mapKey bestKey,
        acc.2 ++ [{ field with matchedKey := some bestKey, mappingTarget := some mapKey }])
    else (acc.1, acc.2 ++ [field])
  | (none, _) => (acc.1, acc.2 ++ [field])

/-- Function `mapFieldsToUserData(fields, userDataKeys)` (lines 173–232).  Returns
the mapping object together with the field list as it stands after the
call — the source mutates each mapped field in place
(`field.matchedKey = bestKey; field.mappingTarget = mapKey`), so the field
list is part of the observable result. -/
def mapFieldsToUserData (fields : List MField) (userDataKeys : List String) :
    List (String × String) × List MField :=
  fields.foldl (mapFieldsStep userDataKeys) ([], [])

/-- Erase the annotation slots the mapper writes (`matchedKey`,
`mappingTarget`), leaving the data the mapper reads. -/
def clearAnn (f : MField) : MField :=
  { f with matchedKey := none, mappingTarget := none }

/-! ### The score formula as the specification words it (for claim C5)

`specScoreC5` follows the spec sentence signal by signal: every comparison
(including the curated mobile/gender/hobbies bonuses) is on *normalized*
strings — "label and key both normalize to ..." — and the "+15 per shared
whole-word token of length > 2" signal tokenizes the lowercased raw label
and key (the only strings that still have word separators).  The
antagonistic type pairs are the two the source curates (a radio-group
against a key implying multiple values, and dually).  This definition is
compared against `computeScore`, the translation of the source. -/

/-- Whole-word tokens of length > 2 of a string, per the spec's words:
lowercase, split at non-alphanumeric characters. -/
def specTokens (s : String) : List String :=
  (splitNonAlnum (jsLower s)).filter (fun t => 2 < t.length)

/-- The weighted-signal sum exactly as the specification describes it. -/
def specScoreC5 (field : MField) (key : String) : Int :=
  let nl := normalize field.label
  let nn := normalize field.name
  let nk := normalize key
  (if nl == nk then 100 else 0) +
  (if nn == nk then 100 else 0) +
  (if jsIncludes nl "first" && jsIncludes nk "first" then 50 else 0) +
  (if jsIncludes nl "last" && jsIncludes nk "last" then 50 else 0) +
  (if jsIncludes nl "first" && jsIncludes nk "last" then -100 else 0) +
  (if jsIncludes nl "last" && jsIncludes nk "first" then -100 else 0) +
  (if jsIncludes nl nk || jsIncludes nk nl then 20 else 0) +
  ((specTokens field.label).filter (fun t => (specTokens key).contains t)).length * 15 +
  (if nl == "mobile" && nk == "mobile" then 200 else 0) +
  (if nl == "gender" && nk == "gender" then 200 else 0) +
  (if nl == "hobbies" && nk == "hobbies" then 200 else 0) +
  (if field.type == "radio-group" && jsIncludes nk "hobbies" then -500 else 0) +
  (if field.type == "checkbox-group" && jsIncludes nk "gender" then -500 else 0)

/-- The weighted-signal sum as the source actually computes it, written as
one additive formula (the amended form of claim C5): the curated mobile
bonus tests substring containment of the *raw lowercased* label, the
curated gender/hobbies bonuses test equality of the *raw lowercased* label,
and the shared-token signal — running on the already separator-free
normalized strings — degenerates to a single +15 exactly when the
normalized label and key are equal and longer than two characters. -/
def actualSignalSum (field : MField) (key : String) : Int :=
  let fLabel := normalize field.label
  let fName := normalize field.name
  let fLabelRaw := jsLower field.label
  let normKey := normalize key
  let fTokens := (splitNonAlnum fLabel).filter (fun t => 2 < t.length)
  let kTokens := (splitNonAlnum normKey).filter (fun t => 2 < t.length)
  let overlap := fTokens.filter (fun t => kTokens.contains t)
  (if fName == normKey then (100 : Int) else 0) +
  (if fLabel == normKey then 100 else 0) +
  (if jsIncludes fLabel "first" && jsIncludes normKey "first" then 50 else 0) +
  (if jsIncludes fLabel "last" && jsIncludes normKey "last" then 50 else 0) +
  (if jsIncludes fLabel "first" && jsIncludes normKey "last" then -100 else 0) +
  (if jsIncludes fLabel "last" && jsIncludes normKey "first" then -100 else 0) +
  (if jsIncludes fLabel normKey || jsIncludes normKey fLabel then 20 else 0) +
  (if 0 < overlap.length then (overlap.length : Int) * 15 else 0) +
  (if jsIncludes fLabelRaw "mobile" && jsIncludes normKey "mobile" then 200 else 0) +
  (if fLabelRaw == "gender" && normKey == "gender" then 200 else 0) +
  (if fLabelRaw == "hobbies" && normKey == "hobbies" then 200 else 0) +
  (if field.type == "radio-group" && jsIncludes normKey "hobbies" then -500 else 0) +
  (if field.type == "checkbox-group" && jsIncludes normKey "gender" then -500 else 0)

/-! ### Fill orchestrator (`src/backend/mcp/system.js`, `runJob`)

The FILLING loop (lines 355–865) is embedded as a recursion over the
sorted field list.  Per iteration the source: skips an unmapped field
(recording it in `validation.missingFields` when required, line 359–362),
skips a disabled/read-only field (line 366), skips a hidden element of a
non-exempt type (lines 380–386), otherwise attempts the type-specific
interaction; a thrown interaction error is caught at lines 857–864 and,
when the field is required, transitions the job to FAILED and returns,
otherwise the loop continues.  Whether a given field's interaction throws
is environment behavior, supplied here as the per-field oracle bit
`raisesError`; likewise `disabled` and `hidden` abstract the corresponding
DOM reads.  Completing the loop reaches `mcp.updateState('SUBMITTING')`
(line 904) — required-but-unmapped fields only produce the
"PROCEEDING ANYWAY" warnings of lines 867–894. -/

inductive JobState where
  | submitting
  | failed
deriving DecidableEq, Repr

structure FillField where
  label : String
  required : Bool
  mapped : Bool
  disabled : Bool
  hidden : Bool
  raisesError : Bool
deriving DecidableEq, Repr

/-- One pass of the FILLING loop.  Returns the state the orchestrator
reaches after the loop (SUBMITTING, or FAILED with an early return), the
labels of the fields whose interaction was attempted, in order, and the
labels recorded in `validation.missingFields` (required fields with no
mapped data key). -/
def fillLoop : List FillField → JobState × List String × List String
  | [] => (JobState.submitting, [], [])
  | f :: rest =>
    if !f.mapped then
      let r := fillLoop rest
      (r.1, r.2.1, if f.required then f.label :: r.2.2 else r.2.2)
    else if f.disabled then fillLoop rest
    else if f.hidden then fillLoop rest
    else if f.raisesError then
      if f.required then (JobState.failed, [f.label], [])
      else
        let r := fillLoop rest
        (r.1, f.label :: r.2.1, r.2.2)
    else
      let r := fillLoop rest
      (r.1, f.label :: r.2.1, r.2.2)

/-! ### Type-priority sort (system.js lines 337–351) -/

/-- The `typePriority` table; `typePriority[a.type] || 10` yields 10 for
any type outside the table. -/
def typePriority (t : String) : Nat :=
  if t == "text" then 1
  else if t == "email" then 1
  else if t == "phone" then 1
  else if t == "textarea" then 1
  else if t == "radio-group" then 2
  else if t == "checkbox-group" then 3
  else if t == "select" then 4
  else if t == "date" then 5
  else if t == "date-picker" then 5
  else if t == "react-select" then 6
  else if t == "file" then 7
  else 10

/-- A detected field as the inspector emits it (`formInspector.js`): label,
type, required flag and interaction selector (options are carried
separately where a claim needs them). -/
structure DetectedField where
  label : String
  type : String
  required : Bool
  selector : String
deriving DecidableEq, Repr

/-- The sort `detectedFields.sort((a, b) => pa - pb)` — an ascending stable sort on
`typePriority` (the ECMAScript `Array.prototype.sort` is stable; a stable
merge sort models it). -/
def sortByTypePriority (fields : List DetectedField) : List DetectedField :=
  fields.mergeSort (fun a b => typePriority a.type ≤ typePriority b.type)

/-! ### Option matching (`src/backend/shared/fieldInteractions.js` lines
20–32; the identical copy in system.js lines 234–246) -/

/-- One option record of a grouped field; a missing property is the empty
string (the source's `opt.value && ...` truthiness guards). -/
structure ORec where
  id : String
  value : String
  label : String
  selector : String
  text : String
deriving DecidableEq, Repr

/-- Function `findOptionMatch(options, userValue)`: first option whose `value`,
`label` or `text` matches the trimmed, lowercased user value exactly. -/
def findOptionMatch (options : List ORec) (userValue : String) : Option ORec :=
  if options.isEmpty then none
  else
    let normVal := jsLower (jsTrim userValue)
    options.find? (fun o =>
      (o.value != "" && jsLower (jsTrim o.value) == normVal) ||
      (o.label != "" && jsLower (jsTrim o.label) == normVal) ||
      (o.text != "" && jsLower (jsTrim o.text) == normVal))

/-! ### Time-group handler (`fieldInteractions.js`, `fillTimeGroup`,
lines 151–239)

The parse of lines 153–166 is pure and extracted as `timeGroupParsed`.
The sub-input fill actions (click, clear, slow type, AM/PM menu click) are
DOM effects that do not influence the function's result; the read-back
verification of lines 221–238 compares each non-meridiem sub-input's
`page.inputValue` — modeled by the oracle `readBack` — against the typed
value and succeeds only when every such sub-input matches. -/

structure TimeSubInput where
  selector : String
  type : String
deriving DecidableEq, Repr

structure TimeField where
  label : String
  inputs : List TimeSubInput
deriving DecidableEq, Repr

/-- What the page reports back for a sub-input selector after the fill
actions (`page.inputValue`). -/
structure TimePage where
  readBack : String → String

/-- Lines 153–166: split on `':'`, fail under two parts, pad the hour,
slice-and-pad the minute, infer AM/PM from an explicit marker or from
`parseInt(hour) >= 12`. -/
def timeGroupParsed (timeStr : String) : Option (String × String × String) :=
  let parts := jsSplitChar ':' timeStr
  if parts.length < 2 then none
  else
    match parts with
    | p0 :: p1 :: _ =>
      let hour := jsPadStart 2 '0' (jsTrim p0)
      let minute := jsPadStart 2 '0' (jsSliceTo 2 (jsTrim p1))
      let lower := jsLower timeStr
      let ampm0 := if jsIncludes lower "pm" then "PM" else "AM"
      let hourGE12 : Bool :=
        match jsParseInt hour with
        | some n => decide (12 ≤ n)
        | none => false
      let ampm := if hourGE12 && !(jsIncludes lower "am") then "PM" else ampm0
      some (hour, minute, ampm)
    | _ => none

/-- Function `fillTimeGroup(page, field, userValue)`: parse (throwing on fewer than
two colon-separated parts), fill, then verify every non-`ampm` sub-input
reads back exactly the typed value; throw otherwise. -/
def fillTimeGroup (page : TimePage) (field : TimeField) (userValue : String) :
    Except String Bool :=
  match timeGroupParsed userValue with
  | none =>
    Except.error ("Invalid time format for \"" ++ field.label ++
      "\". Expected \"HH:MM\", got \"" ++ userValue ++ "\"")
  | some (hour, minute, _ampm) =>
    let expectedNumericCount := (field.inputs.filter (fun i => i.type != "ampm")).length
    let verifiedCount :=
      (field.inputs.filter (fun i =>
        i.type != "ampm" &&
          page.readBack i.selector == (if i.type == "hour" then hour else minute))).length
    if verifiedCount == expectedNumericCount then Except.ok true
    else Except.error ("Failed to fill time field: " ++ field.label)

/-! ### Radio and checkbox handlers (`fieldInteractions.js`, `selectRadio`
lines 241–337 and `selectCheckbox` lines 339–395)

DOM effects are recorded as a trace of click actions; the checked-state
reads (`document.getElementById(id).checked` / label-resolution inside
`page.evaluate`) are oracle bits of the page. -/

inductive ClickAct where
  | click (sel : String)
  | jsClick (sel : String)
  | forcedClick (sel : String)
deriving DecidableEq, Repr

structure RadioField where
  label : String
  options : List ORec
deriving DecidableEq, Repr

/-- Page oracle for `selectRadio`: whether `label[for=id]` exists, whether
the first standard click throws, and the two checked-state reads (after
the first click, and after the backup JS click). -/
structure RadioPage where
  hasLabelFor : String → Bool
  standardClickFails : Bool
  checkedFirst : Bool
  checkedRetry : Bool

/-- Lines 249–257: prefer the associated `label[for=id]` selector when the
option has an id and the label element exists. -/
def radioClickSelector (page : RadioPage) (m : ORec) : String :=
  if m.id != "" && page.hasLabelFor m.id then "label[for=\"" ++ m.id ++ "\"]"
  else m.selector

/-- Function `selectRadio(page, field, userValue)`: exact option match, click
(falling back to a JS click if the standard click throws), verify the
checked state; on failure retry once with a JS click and re-verify; throw
if still unverified. -/
def selectRadio (page : RadioPage) (field : RadioField) (userValue : String) :
    Except String (List ClickAct) :=
  match findOptionMatch field.options userValue with
  | none =>
    Except.error ("No matching option found for \"" ++ field.label ++
      "\" with value \"" ++ userValue ++ "\"")
  | some m =>
    let sel := radioClickSelector page m
    let firstClick :=
      if page.standardClickFails then [ClickAct.click sel, ClickAct.jsClick sel]
      else [ClickAct.click sel]
    if page.checkedFirst then Except.ok firstClick
    else if page.checkedRetry then Except.ok (firstClick ++ [ClickAct.jsClick sel])
    else
      Except.error ("Failed to select radio \"" ++ field.label ++ "\" (option: \"" ++
        userValue ++ "\") after multiple attempts.")

/-- Page oracle for `selectCheckbox`: label existence, the pre-click
checked state of each option id (line 364), and the post-click checked
state (line 378). -/
structure CheckboxPage where
  hasLabelFor : String → Bool
  alreadyChecked : String → Bool
  checkedAfterClick : String → Bool

/-- Line 350–356 of `selectCheckbox`: same label-preference rule. -/
def checkboxClickSelector (page : CheckboxPage) (m : ORec) : String :=
  if m.id != "" && page.hasLabelFor m.id then "label[for=\"" ++ m.id ++ "\"]"
  else m.selector

/-- Function `selectCheckbox(page, field, values)`: for each value, exact option
match (throwing when none), skip if already checked, click, verify, and on
verification failure click once more — without re-verifying — then move
on; the function returns success (`return true`, line 394) regardless of
the verification outcomes.  The returned trace lists the clicks
performed. -/
def selectCheckbox (page : CheckboxPage) (field : RadioField) :
    List String → Except String (List ClickAct)
  | [] => Except.ok []
  | v :: rest =>
    match findOptionMatch field.options v with
    | none =>
      Except.error ("No matching checkbox found for \"" ++ field.label ++
        "\" with value \"" ++ v ++ "\"")
    | some m =>
      if page.alreadyChecked m.id then selectCheckbox page field rest
      else
        let sel := checkboxClickSelector page m
        let acts :=
          if page.checkedAfterClick m.id then [ClickAct.forcedClick sel]
          else [ClickAct.forcedClick sel, ClickAct.forcedClick sel]
        match selectCheckbox page field rest with
        | Except.ok more => Except.ok (acts ++ more)
        | Except.error e => Except.error e

/-! ### Date handler (`fieldInteractions.js`, `fillDate`, lines 63–102)

`new Date(userValue)` is a host (JavaScript engine) capability and is
modeled as the oracle parameter `parseDate`; `none` models an invalid date
(`isNaN(date.getTime())`).  Every page operation the handler performs is
recorded, in order, in the returned trace, so "no DOM interaction before
the error" is the statement that the trace is empty in the error case. -/

inductive PageOp where
  | click (sel : String)
  | waitForSel (sel : String)
  | selectOpt (sel : String) (v : String)
  | fillOp (sel : String) (v : String)
  | typeText (sel : String) (v : String)
  | pressKey (sel : String) (k : String)
deriving DecidableEq, Repr

/-- The derived values of a successfully parsed `Date`: `toISOString`
prefix, long month name, and the numeric year / 0-based month / day. -/
structure JsDate where
  iso : String
  monthLong : String
  year : Nat
  month : Nat
  day : Nat
deriving DecidableEq, Repr

/-- Page oracle for `fillDate`: whether a `.react-datepicker-wrapper`
exists under the selector, whether the picker overlay became visible,
whether the day-cell click threw (forcing the `div[role="option"]`
fallback click), and whether the native `page.fill` threw (forcing the
typed US-format fallback). -/
structure DatePage where
  hasWrapper : Bool
  pickerVisible : Bool
  dayClickFails : Bool
  fillThrows : Bool
deriving DecidableEq, Repr

/-- Function `fillDate(page, selector, userValue, field)`: parse first and throw
`Invalid date value` on failure; otherwise drive the react-datepicker when
present (overlay path or iso-fill fallback), else a native iso fill with a
typed US-date fallback.  Returns the trace of page operations together
with the outcome. -/
def fillDate (parseDate : String → Option JsDate) (page : DatePage)
    (selector : String) (userValue : String) (fieldType : String) :
    List PageOp × Except String Bool :=
  match parseDate userValue with
  | none => ([], Except.error ("Invalid date value: " ++ userValue))
  | some d =>
    let isoDate := d.iso
    let year := toString d.year
    let day := toString d.day
    let daySel := ".react-datepicker__day:not(.react-datepicker__day--outside-month):text-is(\"" ++ day ++ "\")"
    if fieldType == "date-picker" || page.hasWrapper then
      if page.pickerVisible then
        ([PageOp.click selector, PageOp.waitForSel ".react-datepicker",
          PageOp.selectOpt ".react-datepicker__month-select" d.monthLong,
          PageOp.selectOpt ".react-datepicker__year-select" year] ++
          (if page.dayClickFails then
            [PageOp.click daySel, PageOp.click ("div[role=\"option\"]:has-text(\"" ++ day ++ "\")")]
          else [PageOp.click daySel]),
          Except.ok true)
      else
        ([PageOp.click selector, PageOp.waitForSel ".react-datepicker",
          PageOp.fillOp selector isoDate, PageOp.pressKey selector "Enter"],
          Except.ok true)
    else
      if page.fillThrows then
        let usDate := jsPadStart 2 '0' (toString (d.month + 1)) ++ "/" ++
          jsPadStart 2 '0' day ++ "/" ++ year
        ([PageOp.fillOp selector isoDate, PageOp.typeText selector usDate], Except.ok true)
      else ([PageOp.fillOp selector isoDate], Except.ok true)

/-! ### Field discovery map discipline (`src/backend/formInspector.js`,
`inspectForm`)

The in-page script builds a label-keyed `Map` (`detectedMap`) in three
passes: the Google-Forms question strategy (lines 30–139), the native
radio/checkbox grouping strategy (lines 141–240), and the generic input
scan (lines 242–345), then returns `Array.from(detectedMap.values())`.
The DOM queries and label-resolution heuristics inside each pass are
modeled as a pre-resolved page snapshot: each candidate arrives with the
label text, type, requiredness and selector the heuristics produced.  What
is embedded faithfully is everything the invariants of claim C8 depend on:
the per-pass guards (`if (labelText && selector)` line 129; the `if (name)`
grouping filter line 156 and the `groupLabel` fallback-to-name of lines
195–197; the `if (!labelText) return` of line 320) and the map updates —
strategies 0 and 0.5 call `detectedMap.set` unconditionally (lines 130,
232), while strategy 1 first checks `detectedMap.has(labelText)`
(line 323). -/

/-- A Google-Forms question candidate (strategy 0): resolved heading label
(required-markers already stripped), the selector the classification chose
(`none` when no recognizable control was found), field type, and the
required flag. -/
structure GQuestion where
  labelText : String
  selector : Option String
  type : String
  required : Bool
deriving DecidableEq, Repr

/-- A native radio/checkbox name-group candidate (strategy 0.5): the
(truthy-filtered) group name, the label the legend/column/preceding-label
chain resolved (empty when none did), the group type and the approximate
container selector.  Note the source hard-codes `required: false` for
these groups (line 235). -/
structure NGroup where
  name : String
  resolvedLabel : String
  type : String
  selector : String
deriving DecidableEq, Repr

/-- A generic-scan candidate (strategy 1): the resolved label (empty when
resolution failed, in which case the input is dropped), type, required
flag and selector. -/
structure GInput where
  labelText : String
  type : String
  required : Bool
  selector : String
deriving DecidableEq, Repr

structure PageSnapshot where
  gQuestions : List GQuestion
  nGroups : List NGroup
  gInputs : List GInput
deriving DecidableEq, Repr

/-- One question of strategy 0 (Google questions):
`detectedMap.set(labelText, {...})` guarded by `if (labelText && selector)`
(lines 129–138). -/
def strat0Step (m : List (String × DetectedField)) (q : GQuestion) :
    List (String × DetectedField) :=
  match q.selector with
  | some sel =>
    if q.labelText != "" then
      jsSet m q.labelText
        { label := q.labelText, type := q.type, required := q.required, selector := sel }
    else m
  | none => m

def strat0Fold (m : List (String × DetectedField)) (qs : List GQuestion) :
    List (String × DetectedField) :=
  qs.foldl strat0Step m

/-- One group of strategy 0.5 (native groups): `groupLabel` falls back to
the group name, `if (!groupLabel) return`, then an *unconditional*
`detectedMap.set(groupLabel, {...})` (lines 195–240). -/
def strat05Step (m : List (String × DetectedField)) (g : NGroup) :
    List (String × DetectedField) :=
  if g.name != "" then
    let groupLabel := if g.resolvedLabel != "" then g.resolvedLabel else g.name
    if groupLabel != "" then
      jsSet m groupLabel
        { label := groupLabel, type := g.type, required := false, selector := g.selector }
    else m
  else m

def strat05Fold (m : List (String × DetectedField)) (gs : List NGroup) :
    List (String × DetectedField) :=
  gs.foldl strat05Step m

/-- One input of strategy 1 (generic scan): `if (!labelText) return;` then
`if (detectedMap.has(labelText)) return;` then `detectedMap.set`
(lines 320–344). -/
def strat1Step (m : List (String × DetectedField)) (i : GInput) :
    List (String × DetectedField) :=
  if i.labelText != "" then
    if m.any (fun p => p.1 == i.labelText) then m
    else
      jsSet m i.labelText
        { label := i.labelText, type := i.type, required := i.required, selector := i.selector }
  else m

def strat1Fold (m : List (String × DetectedField)) (is : List GInput) :
    List (String × DetectedField) :=
  is.foldl strat1Step m

/-- The label→field map after strategies 0 and 0.5. -/
def mapAfterStrat05 (p : PageSnapshot) : List (String × DetectedField) :=
  strat05Fold (strat0Fold [] p.gQuestions) p.nGroups

/-- The final label→field map after all three strategies. -/
def finalFieldMap (p : PageSnapshot) : List (String × DetectedField) :=
  strat1Fold (mapAfterStrat05 p) p.gInputs

/-- Function `inspectForm`: `Array.from(detectedMap.values())` in insertion
order. -/
def inspectForm (p : PageSnapshot) : List DetectedField :=
  (finalFieldMap p).map Prod.snd

/-! ### Auxiliary definitions used by the proofs: closed forms of the
loop bodies, the label-map invariant, and the concrete instances the
witnesses and counterexamples evaluate -/

/-- The mapping-object part of one per-field loop iteration. -/
def mappingStep (keys : List String) (m : List (String × String)) (f : MField) :
    List (String × String) :=
  match fieldChoice f keys with
  | some k => jsSet m (mapKeyOf f) k
  | none => m

/-- The in-place annotation one loop iteration performs on its field. -/
def annotateField (keys : List String) (f : MField) : MField :=
  match fieldChoice f keys with
  | some k => { f with matchedKey := some k, mappingTarget := some (mapKeyOf f) }
  | none => f

def emailFieldA : MField := { label := "email", name := "", type := "text", selector := "#a" }

def emailFieldB : MField := { label := "email", name := "", type := "text", selector := "#b" }

def genderColonField : MField :=
  { label := "Gender:", name := "", type := "text", selector := "#g" }

def hobbiesOption : ORec :=
  { id := "hobbies-checkbox-1", value := "", label := "Sports",
    selector := "#hobbies-checkbox-1", text := "Sports" }

def hobbiesField : RadioField := { label := "Hobbies", options := [hobbiesOption] }

def neverCheckedPage : CheckboxPage :=
  { hasLabelFor := fun _ => true, alreadyChecked := fun _ => false,
    checkedAfterClick := fun _ => false }

def ffOk : FillField := ⟨"First Name", false, true, false, false, false⟩

def ffBad : FillField := ⟨"Email", true, true, false, false, true⟩

def ffLater : FillField := ⟨"Gender", true, true, false, false, false⟩

def ffUnmapped : FillField := ⟨"Mobile", true, false, false, false, false⟩

/-- Invariant of the label→field map: every key is a non-empty label, the
stored field's `label` equals its key, and keys are unique. -/
def MapInvP (m : List (String × DetectedField)) : Prop :=
  (∀ kv ∈ m, kv.1 ≠ "" ∧ kv.2.label = kv.1) ∧ (m.map Prod.fst).Nodup

def gqGender : GQuestion :=
  { labelText := "Gender", selector := some "div[role=\"listitem\"]:nth-of-type(1)",
    type := "radio-group", required := true }

def ngGender : NGroup :=
  { name := "gender", resolvedLabel := "Gender", type := "radio-group",
    selector := "#genderWrapper" }

def snapC8 : PageSnapshot := { gQuestions := [gqGender], nGroups := [ngGender], gInputs := [] }

/-! ## Helper lemmas on the JS map model -/

lemma jsSet_lookup_self {α : Type} (m : List (String × α)) (k : String) (v : α) :
    List.lookup k (jsSet m k v) = some v := by
  induction m with
  | nil => simp [jsSet, List.lookup]
  | cons p rest ih =>
    by_cases h : p.1 = k
    · simp [jsSet, h, List.lookup]
    · simp only [jsSet, beq_iff_eq, if_neg h, List.lookup]
      have : (k == p.1) = false := by
        simp [beq_iff_eq]
        exact fun hk => h hk.symm
      simp [this, ih]

lemma jsSet_lookup_ne {α : Type} (m : List (String × α)) (k k2 : String) (v : α)
    (h : k ≠ k2) : List.lookup k (jsSet m k2 v) = List.lookup k m := by
  induction m with
  | nil =>
    have : (k == k2) = false := by simp [beq_iff_eq]; exact h
    simp [jsSet, List.lookup, this]
  | cons p rest ih =>
    by_cases hp : p.1 = k2
    · simp only [jsSet, beq_iff_eq, if_pos hp, List.lookup]
      have h1 : (k == k2) = false := by simp [beq_iff_eq, h]
      have h2 : (k == p.1) = false := by simp [beq_iff_eq, hp]; exact fun hk => h (hk)
      simp [h1, hp, h2]
    · simp only [jsSet, beq_iff_eq, if_neg hp, List.lookup]
      by_cases hk : k = p.1
      · simp [hk]
      · have : (k == p.1) = false := by simp [beq_iff_eq, hk]
        simp [this, ih]

lemma jsSet_fst_mem {α : Type} (m : List (String × α)) (k : String) (v : α)
    (x : String) (h : x ∈ (jsSet m k v).map Prod.fst) :
    x ∈ m.map Prod.fst ∨ x = k := by
  induction m with
  | nil => simpa [jsSet] using h
  | cons p rest ih =>
    by_cases hp : p.1 = k
    · simp only [jsSet, beq_iff_eq, if_pos hp] at h
      simp only [List.map_cons, List.mem_cons] at h ⊢
      rcases h with h | h
      · right; exact h
      · left; right; exact h
    · simp only [jsSet, beq_iff_eq, if_neg hp] at h
      simp only [List.map_cons, List.mem_cons] at h ⊢
      rcases h with h | h
      · left; left; exact h
      · rcases ih h with h2 | h2
        · left; right; exact h2
        · right; exact h2

lemma jsSet_fst_nodup {α : Type} (m : List (String × α)) (k : String) (v : α)
    (h : (m.map Prod.fst).Nodup) : ((jsSet m k v).map Prod.fst).Nodup := by
  induction m with
  | nil => simp [jsSet]
  | cons p rest ih =>
    simp only [List.map_cons, List.nodup_cons] at h
    by_cases hp : p.1 = k
    · simp only [jsSet, beq_iff_eq, if_pos hp, List.map_cons, List.nodup_cons]
      exact ⟨by rw [← hp]; exact h.1, h.2⟩
    · simp only [jsSet, beq_iff_eq, if_neg hp, List.map_cons, List.nodup_cons]
      refine ⟨?_, ih h.2⟩
      intro hmem
      rcases jsSet_fst_mem rest k v p.1 hmem with h2 | h2
      · exact h.1 h2
      · exact hp h2

lemma lookup_none_of_not_mem_fst {α : Type} (m : List (String × α)) (k : String)
    (h : k ∉ m.map Prod.fst) : List.lookup k m = none := by
  induction m with
  | nil => simp [List.lookup]
  | cons p rest ih =>
    simp only [List.map_cons, List.mem_cons, not_or] at h
    have : (k == p.1) = false := by simp [beq_iff_eq, h.1]
    simp [List.lookup, this, ih h.2]

lemma jsSet_mem {α : Type} (m : List (String × α)) (k : String) (v : α)
    (kv : String × α) (h : kv ∈ jsSet m k v) : kv ∈ m ∨ kv = (k, v) := by
  induction m with
  | nil => simpa [jsSet] using h
  | cons p rest ih =>
    by_cases hp : p.1 = k
    · simp only [jsSet, beq_iff_eq, if_pos hp, List.mem_cons] at h
      rcases h with h | h
      · right; exact h
      · left; simp [h]
    · simp only [jsSet, beq_iff_eq, if_neg hp, List.mem_cons] at h
      rcases h with h | h
      · left; simp [h]
      · rcases ih h with h2 | h2
        · left; simp [h2]
        · right; exact h2

lemma jsSet_eq_append_of_absent {α : Type} (m : List (String × α)) (k : String) (v : α)
    (h : (m.any (fun p => p.1 == k)) = false) : jsSet m k v = m ++ [(k, v)] := by
  induction m with
  | nil => simp [jsSet]
  | cons p rest ih =>
    simp only [List.any_cons, Bool.or_eq_false_iff] at h
    simp only [jsSet]
    rw [if_neg (by simp [h.1]), ih h.2]
    simp

lemma filter_and_sub_length {α : Type} (l : List α) (p q : α → Bool) :
    (l.filter (fun x => p x && q x)).length ≤ (l.filter p).length := by
  induction l with
  | nil => simp
  | cons a t ih =>
    by_cases hp : p a = true <;> by_cases hq : q a = true <;>
      simp [List.filter_cons, hp, hq] <;> omega

lemma length_filter_and_eq_iff {α : Type} (l : List α) (p q : α → Bool) :
    ((l.filter (fun x => p x && q x)).length = (l.filter p).length) ↔
      (∀ x ∈ l, p x = true → q x = true) := by
  induction l with
  | nil => simp
  | cons a t ih =>
    have hle := filter_and_sub_length t p q
    by_cases hp : p a = true
    · by_cases hq : q a = true
      · simpa [List.filter_cons, hp, hq] using ih
      · simp only [List.filter_cons, hp, hq]
        simp [hp, hq]
        intro h
        omega
    · simpa [List.filter_cons, hp] using ih

/-! ## Closed forms of the mapper fold -/

lemma mapFieldsStep_eq (keys : List String) (acc : List (String × String) × List MField)
    (field : MField) :
    mapFieldsStep keys acc field =
      (mappingStep keys acc.1 field, acc.2 ++ [annotateField keys field]) := by
  unfold mapFieldsStep mappingStep annotateField fieldChoice
  rcases h : chooseBest field keys with ⟨bk, bs⟩
  cases bk with
  | none => simp
  | some k =>
    by_cases h40 : 40 ≤ bs
    · simp [h40]
    · simp [h40]

lemma mapFields_fold_general (keys : List String) :
    ∀ (fields : List MField) (m : List (String × String)) (l : List MField),
      fields.foldl (mapFieldsStep keys) (m, l) =
        (fields.foldl (mappingStep keys) m, l ++ fields.map (annotateField keys)) := by
  intro fields
  induction fields with
  | nil => intro m l; simp
  | cons f t ih =>
    intro m l
    rw [List.foldl_cons, mapFieldsStep_eq, ih]
    simp

lemma mapFields_fst (fields : List MField) (keys : List String) :
    (mapFieldsToUserData fields keys).1 = fields.foldl (mappingStep keys) [] := by
  unfold mapFieldsToUserData
  rw [mapFields_fold_general]

lemma mapFields_snd (fields : List MField) (keys : List String) :
    (mapFieldsToUserData fields keys).2 = fields.map (annotateField keys) := by
  unfold mapFieldsToUserData
  rw [mapFields_fold_general]
  simp

/-! ## Per-field-key structure of the mapping -/

lemma mappingFold_fst_nodup (keys : List String) :
    ∀ (fields : List MField) (m : List (String × String)),
      (m.map Prod.fst).Nodup → ((fields.foldl (mappingStep keys) m).map Prod.fst).Nodup := by
  intro fields
  induction fields with
  | nil => intro m h; simpa using h
  | cons f t ih =>
    intro m h
    rw [List.foldl_cons]
    apply ih
    unfold mappingStep
    cases hc : fieldChoice f keys with
    | none => exact h
    | some k => exact jsSet_fst_nodup m (mapKeyOf f) k h

lemma mappingFold_lookup_frozen (keys : List String) :
    ∀ (fields : List MField) (m : List (String × String)) (k : String),
      (∀ f ∈ fields, mapKeyOf f ≠ k) →
      List.lookup k (fields.foldl (mappingStep keys) m) = List.lookup k m := by
  intro fields
  induction fields with
  | nil => intro m k _; simp
  | cons f t ih =>
    intro m k h
    rw [List.foldl_cons, ih _ _ (fun g hg => h g (by simp [hg]))]
    unfold mappingStep
    cases hc : fieldChoice f keys with
    | none => rfl
    | some k2 =>
      exact jsSet_lookup_ne m k (mapKeyOf f) k2 (fun he => h f (by simp) he.symm)

lemma mappingFold_lookup (keys : List String) :
    ∀ (fields : List MField) (m : List (String × String)) (f : MField),
      f ∈ fields → (fields.map mapKeyOf).Nodup → mapKeyOf f ∉ m.map Prod.fst →
      List.lookup (mapKeyOf f) (fields.foldl (mappingStep keys) m) = fieldChoice f keys := by
  intro fields
  induction fields with
  | nil => intro m f h; simp at h
  | cons g t ih =>
    intro m f hmem hnd hnotin
    simp only [List.map_cons, List.nodup_cons] at hnd
    rcases List.mem_cons.1 hmem with heq | hmemt
    · subst heq
      rw [List.foldl_cons]
      have hfrozen : ∀ h2 ∈ t, mapKeyOf h2 ≠ mapKeyOf f := by
        intro h2 hh2 he
        exact hnd.1 (he ▸ List.mem_map_of_mem mapKeyOf hh2)
      rw [mappingFold_lookup_frozen keys t _ _ hfrozen]
      unfold mappingStep
      cases hc : fieldChoice f keys with
      | none => exact lookup_none_of_not_mem_fst m (mapKeyOf f) hnotin
      | some k => exact jsSet_lookup_self m (mapKeyOf f) k
    · rw [List.foldl_cons]
      apply ih _ f hmemt hnd.2
      intro hmem2
      have hne : mapKeyOf f ≠ mapKeyOf g := by
        intro he
        exact hnd.1 (he ▸ List.mem_map_of_mem mapKeyOf hmemt)
      unfold mappingStep at hmem2
      cases hc : fieldChoice g keys with
      | none => rw [hc] at hmem2; exact hnotin hmem2
      | some k =>
        rw [hc] at hmem2
        rcases jsSet_fst_mem m (mapKeyOf g) k _ hmem2 with h2 | h2
        · exact hnotin h2
        · exact hne h2

/-! ## Concrete fields for the mapper counterexamples -/

/-- Claim C1 counterexample: with two detected fields both labeled
"email" (distinct selectors) and the single caller key "email", both
fields map to the key "email" — the data key is consumed twice, so "for
all keys k, at most one field's mapping target equals k" is false at this
input. -/
theorem mapper_key_reuse_cex :
    (mapFieldsToUserData [emailFieldA, emailFieldB] ["email"]).1 =
      [("#a", "email"), ("#b", "email")] ∧
    ¬ (((mapFieldsToUserData [emailFieldA, emailFieldB] ["email"]).1.filter
        (fun e => e.2 == "email")).length ≤ 1) := by
  constructor
  · decide
  · decide

/-- Claim C1, amended: each *field key* carries at most one data key (the
mapping's keys are unique), and under distinct field keys each field's
entry is exactly its own independently best-scoring key — the mapper never
removes a data key from the pool, so distinct fields may consume the same
data key. -/
theorem mapper_mapping_per_field (fields : List MField) (keys : List String) :
    ((mapFieldsToUserData fields keys).1.map Prod.fst).Nodup ∧
    ((fields.map mapKeyOf).Nodup →
      ∀ f ∈ fields,
        List.lookup (mapKeyOf f) (mapFieldsToUserData fields keys).1 = fieldChoice f keys) := by
  constructor
  · rw [mapFields_fst]
    exact mappingFold_fst_nodup keys fields [] (by simp)
  · intro hnd f hf
    rw [mapFields_fst]
    exact mappingFold_lookup keys fields [] f hf hnd (by simp)

theorem mapper_mapping_per_field_witness :
    (([emailFieldA, emailFieldB].map mapKeyOf).Nodup ∧ emailFieldA ∈ [emailFieldA, emailFieldB]) ∧
    List.lookup (mapKeyOf emailFieldA) (mapFieldsToUserData [emailFieldA, emailFieldB] ["email"]).1 =
      fieldChoice emailFieldA ["email"] :=
  ⟨⟨by decide, by decide⟩,
    (mapper_mapping_per_field [emailFieldA, emailFieldB] ["email"]).2 (by decide) emailFieldA
      (by decide)⟩

/-- Claim C6 counterexample: the call mutates its input — the returned
field list differs from the input list, the mapped field now carrying
`matchedKey`/`mappingTarget` annotations. -/
theorem mapper_mutates_fields_cex :
    (mapFieldsToUserData [emailFieldA] ["email"]).2 ≠ [emailFieldA] ∧
    (mapFieldsToUserData [emailFieldA] ["email"]).2 =
      [{ emailFieldA with matchedKey := some "email", mappingTarget := some "#a" }] := by
  constructor
  · decide
  · decide

lemma fieldChoice_clearAnn (f : MField) (keys : List String) :
    fieldChoice (clearAnn f) keys = fieldChoice f keys := rfl

lemma mapKeyOf_clearAnn (f : MField) : mapKeyOf (clearAnn f) = mapKeyOf f := rfl

lemma clearAnn_annotate (keys : List String) (f : MField) :
    clearAnn (annotateField keys f) = clearAnn f := by
  unfold annotateField
  cases h : fieldChoice f keys <;> simp [clearAnn]

/-- Claim C6, amended: the mapper is deterministic and its output mapping
depends only on the fields' data (label, name, type, selector), never on
the mutable annotation slots; but the input field objects *are* mutated —
each mapped field gets `matchedKey`/`mappingTarget` written, and nothing
else changes. -/
theorem mapper_pure_modulo_ann (fields : List MField) (keys : List String) :
    (mapFieldsToUserData (fields.map clearAnn) keys).1 = (mapFieldsToUserData fields keys).1 ∧
    (mapFieldsToUserData fields keys).2.map clearAnn = fields.map clearAnn := by
  constructor
  · rw [mapFields_fst, mapFields_fst, List.foldl_map]
    have : (fun (m : List (String × String)) (f : MField) => mappingStep keys m (clearAnn f)) =
        mappingStep keys := by
      funext m f
      unfold mappingStep
      rw [fieldChoice_clearAnn, mapKeyOf_clearAnn]
    rw [this]
  · rw [mapFields_snd, List.map_map]
    apply List.map_congr_left
    intro f _
    exact clearAnn_annotate keys f

/-- Claim C10: an unparseable date value makes `fillDate` fail with the
parse error before any page operation is performed (empty trace). -/
theorem date_parse_fail_fast (parseDate : String → Option JsDate) (page : DatePage)
    (selector userValue fieldType : String) (h : parseDate userValue = none) :
    fillDate parseDate page selector userValue fieldType =
      ([], Except.error ("Invalid date value: " ++ userValue)) := by
  simp [fillDate, h]

theorem date_parse_fail_fast_witness :
    fillDate (fun _ => none) ⟨false, false, false, false⟩ "#dateOfBirthInput" "not-a-date" "date" =
      ([], Except.error ("Invalid date value: " ++ "not-a-date")) :=
  date_parse_fail_fast (fun _ => none) ⟨false, false, false, false⟩ "#dateOfBirthInput"
    "not-a-date" "date" rfl

/-! ## Claim C5: the score formula -/

/-- Claim C5 counterexample: for the field labeled "Gender:" against the
key "Gender", the source scores 135 (the curated +200 gender bonus
compares the raw lowercased label "gender:", not the normalized
"gender"), while the specification's formula scores 335. -/
theorem score_formula_cex :
    computeScore genderColonField "Gender" = 135 ∧
    specScoreC5 genderColonField "Gender" = 335 ∧
    computeScore genderColonField "Gender" ≠ specScoreC5 genderColonField "Gender" := by
  refine ⟨by decide, by decide, by decide⟩

lemma ite_add_shift (c : Prop) [Decidable c] (x w : Int) :
    (if c then x + w else x) = x + (if c then w else 0) := by
  split <;> simp

lemma ite_sub_shift (c : Prop) [Decidable c] (x w : Int) :
    (if c then x - w else x) = x + (if c then -w else 0) := by
  split
  · ring
  · simp

/-- Claim C5, amended: the score is the sum of exactly the implemented
signals (`actualSignalSum`): the curated bonuses compare the *raw
lowercased* label, and the shared-token signal degenerates to a +15 bonus
on equal normalized strings. -/
theorem score_signal_decomposition (field : MField) (key : String) :
    computeScore field key = actualSignalSum field key := by
  simp only [computeScore, actualSignalSum]
  simp only [ite_add_shift, ite_sub_shift]
  ring

/-! ## Claim C9: radio / checkbox verification and retry -/

/-- Claim C9 counterexample: on a page whose checked-state read is always
false, `selectCheckbox` still returns success after its unverified retry
click — the checkbox handler does not report failure when the single
retry is not verified. -/
theorem checkbox_unverified_success_cex :
    neverCheckedPage.checkedAfterClick "hobbies-checkbox-1" = false ∧
    selectCheckbox neverCheckedPage hobbiesField ["Sports"] =
      Except.ok [ClickAct.forcedClick "label[for=\"hobbies-checkbox-1\"]",
        ClickAct.forcedClick "label[for=\"hobbies-checkbox-1\"]"] := by
  refine ⟨rfl, rfl⟩

/-- Claim C9, amended: `selectRadio` verifies, retries once, re-verifies,
and throws when the retry is also unverified; `selectCheckbox` retries
once on verification failure but never re-verifies and reports success
whenever every requested value matched an option. -/
theorem radio_checkbox_retry_policy :
    (∀ (page : RadioPage) (field : RadioField) (v : String) (m : ORec),
      findOptionMatch field.options v = some m →
      page.checkedFirst = false → page.checkedRetry = false →
      selectRadio page field v =
        Except.error ("Failed to select radio \"" ++ field.label ++ "\" (option: \"" ++
          v ++ "\") after multiple attempts.")) ∧
    (∀ (page : RadioPage) (field : RadioField) (v : String) (m : ORec),
      findOptionMatch field.options v = some m →
      page.checkedFirst = false → page.checkedRetry = true →
      page.standardClickFails = false →
      selectRadio page field v =
        Except.ok [ClickAct.click (radioClickSelector page m),
          ClickAct.jsClick (radioClickSelector page m)]) ∧
    (∀ (page : CheckboxPage) (field : RadioField) (vs : List String),
      (∀ v ∈ vs, (findOptionMatch field.options v).isSome) →
      ∃ acts, selectCheckbox page field vs = Except.ok acts) := by
  refine ⟨?_, ?_, ?_⟩
  · intro page field v m hm h1 h2
    simp [selectRadio, hm, h1, h2]
  · intro page field v m hm h1 h2 h3
    simp [selectRadio, hm, h1, h2, h3]
  · intro page field vs
    induction vs with
    | nil => intro _; exact ⟨[], rfl⟩
    | cons v rest ih =>
      intro h
      have hv := h v (by simp)
      rcases Option.isSome_iff_exists.1 hv with ⟨m, hm⟩
      rcases ih (fun v2 hv2 => h v2 (by simp [hv2])) with ⟨acts, hacts⟩
      by_cases hc : page.alreadyChecked m.id = true
      · exact ⟨acts, by simp [selectCheckbox, hm, hc, hacts]⟩
      · refine ⟨(if page.checkedAfterClick m.id then
            [ClickAct.forcedClick (checkboxClickSelector page m)]
          else [ClickAct.forcedClick (checkboxClickSelector page m),
            ClickAct.forcedClick (checkboxClickSelector page m)]) ++ acts, ?_⟩
        simp only [selectCheckbox, hm]
        rw [if_neg hc]
        simp only [hacts]

theorem radio_checkbox_retry_policy_witness :
    (findOptionMatch hobbiesField.options "Sports" = some hobbiesOption ∧
      selectRadio ⟨fun _ => true, false, false, false⟩ hobbiesField "Sports" =
        Except.error ("Failed to select radio \"" ++ "Hobbies" ++ "\" (option: \"" ++
          "Sports" ++ "\") after multiple attempts.")) ∧
    ∃ acts, selectCheckbox neverCheckedPage hobbiesField ["Sports"] = Except.ok acts :=
  ⟨⟨by decide,
    radio_checkbox_retry_policy.1 ⟨fun _ => true, false, false, false⟩ hobbiesField "Sports"
      hobbiesOption (by decide) rfl rfl⟩,
    radio_checkbox_retry_policy.2.2 neverCheckedPage hobbiesField ["Sports"]
      (by intro v hv; simp at hv; subst hv; decide)⟩

/-! ## Claim C7: the time-group handler -/

lemma timeGroupParsed_none_of_short (v : String) (h : (jsSplitChar ':' v).length < 2) :
    timeGroupParsed v = none := by
  simp [timeGroupParsed, h]

/-- Claim C7: fewer than two colon-separated parts is an error; "14:5"
parses to hour "14", minute "05", meridiem "PM"; and (given a parse) the
fill succeeds iff every non-meridiem sub-input reads back exactly the
typed value. -/
theorem time_group_protocol :
    (∀ (page : TimePage) (field : TimeField) (v : String),
      (jsSplitChar ':' v).length < 2 →
      fillTimeGroup page field v =
        Except.error ("Invalid time format for \"" ++ field.label ++
          "\". Expected \"HH:MM\", got \"" ++ v ++ "\"")) ∧
    timeGroupParsed "14:5" = some ("14", "05", "PM") ∧
    (∀ (page : TimePage) (field : TimeField) (v hour minute ampm : String),
      timeGroupParsed v = some (hour, minute, ampm) →
      (fillTimeGroup page field v = Except.ok true ↔
        ∀ i ∈ field.inputs, i.type ≠ "ampm" →
          page.readBack i.selector = (if i.type == "hour" then hour else minute))) := by
  refine ⟨?_, by decide, ?_⟩
  · intro page field v h
    simp [fillTimeGroup, timeGroupParsed_none_of_short v h]
  · intro page field v hour minute ampm hparse
    have key := length_filter_and_eq_iff field.inputs (fun i => i.type != "ampm")
      (fun i => page.readBack i.selector == (if i.type == "hour" then hour else minute))
    simp only [bne_iff_ne, beq_iff_eq, ne_eq, decide_eq_true_eq] at key
    simp only [fillTimeGroup, hparse]
    simp only [beq_iff_eq, bne_iff_ne, ne_eq]
    split_ifs with hc
    · exact iff_of_true rfl (key.1 hc)
    · refine iff_of_false (by simp) ?_
      intro h
      exact hc (key.2 h)

theorem time_group_protocol_witness :
    ((jsSplitChar ':' "145").length < 2 ∧
      fillTimeGroup ⟨fun _ => ""⟩ ⟨"Time", []⟩ "145" =
        Except.error ("Invalid time format for \"" ++ "Time" ++
          "\". Expected \"HH:MM\", got \"" ++ "145" ++ "\"")) ∧
    (timeGroupParsed "14:5" = some ("14", "05", "PM") ∧
      fillTimeGroup ⟨fun s => if s == "#hr" then "14" else "05"⟩
        ⟨"Appointment", [⟨"#hr", "hour"⟩, ⟨"#min", "minute"⟩, ⟨"#ap", "ampm"⟩]⟩ "14:5" =
        Except.ok true) :=
  ⟨⟨by decide, time_group_protocol.1 ⟨fun _ => ""⟩ ⟨"Time", []⟩ "145" (by decide)⟩,
    ⟨by decide,
      (time_group_protocol.2.2 ⟨fun s => if s == "#hr" then "14" else "05"⟩
        ⟨"Appointment", [⟨"#hr", "hour"⟩, ⟨"#min", "minute"⟩, ⟨"#ap", "ampm"⟩]⟩ "14:5"
        "14" "05" "PM" (by decide)).2 (by decide)⟩⟩

/-! ## Claim C3: the required-field policy of the fill loop -/

lemma fillLoop_append (l₁ t : List FillField) (h : (fillLoop l₁).1 = JobState.submitting) :
    fillLoop (l₁ ++ t) =
      ((fillLoop t).1, (fillLoop l₁).2.1 ++ (fillLoop t).2.1,
        (fillLoop l₁).2.2 ++ (fillLoop t).2.2) := by
  induction l₁ with
  | nil => simp [fillLoop]
  | cons g rest ih =>
    rw [List.cons_append]
    by_cases hm : g.mapped = true
    · by_cases hd : g.disabled = true
      · have hsub : (fillLoop rest).1 = JobState.submitting := by
          simpa [fillLoop, hm, hd] using h
        have e1 : fillLoop (g :: (rest ++ t)) = fillLoop (rest ++ t) := by
          simp [fillLoop, hm, hd]
        have e2 : fillLoop (g :: rest) = fillLoop rest := by
          simp [fillLoop, hm, hd]
        rw [e1, e2, ih hsub]
      · by_cases hh : g.hidden = true
        · have hsub : (fillLoop rest).1 = JobState.submitting := by
            simpa [fillLoop, hm, hd, hh] using h
          have e1 : fillLoop (g :: (rest ++ t)) = fillLoop (rest ++ t) := by
            simp [fillLoop, hm, hd, hh]
          have e2 : fillLoop (g :: rest) = fillLoop rest := by
            simp [fillLoop, hm, hd, hh]
          rw [e1, e2, ih hsub]
        · by_cases he : g.raisesError = true
          · by_cases hr : g.required = true
            · exfalso
              simp [fillLoop, hm, hd, hh, he, hr] at h
            · have hsub : (fillLoop rest).1 = JobState.submitting := by
                simpa [fillLoop, hm, hd, hh, he, hr] using h
              have e1 : fillLoop (g :: (rest ++ t)) =
                  ((fillLoop (rest ++ t)).1, g.label :: (fillLoop (rest ++ t)).2.1,
                    (fillLoop (rest ++ t)).2.2) := by
                simp [fillLoop, hm, hd, hh, he, hr]
              have e2 : fillLoop (g :: rest) =
                  ((fillLoop rest).1, g.label :: (fillLoop rest).2.1, (fillLoop rest).2.2) := by
                simp [fillLoop, hm, hd, hh, he, hr]
              rw [e1, e2, ih hsub]
              simp
          · have hsub : (fillLoop rest).1 = JobState.submitting := by
              simpa [fillLoop, hm, hd, hh, he] using h
            have e1 : fillLoop (g :: (rest ++ t)) =
                ((fillLoop (rest ++ t)).1, g.label :: (fillLoop (rest ++ t)).2.1,
                  (fillLoop (rest ++ t)).2.2) := by
              simp [fillLoop, hm, hd, hh, he]
            have e2 : fillLoop (g :: rest) =
                ((fillLoop rest).1, g.label :: (fillLoop rest).2.1, (fillLoop rest).2.2) := by
              simp [fillLoop, hm, hd, hh, he]
            rw [e1, e2, ih hsub]
            simp
    · have hsub : (fillLoop rest).1 = JobState.submitting := by
        simpa [fillLoop, hm] using h
      by_cases hr : g.required = true
      · have e1 : fillLoop (g :: (rest ++ t)) =
            ((fillLoop (rest ++ t)).1, (fillLoop (rest ++ t)).2.1,
              g.label :: (fillLoop (rest ++ t)).2.2) := by
          simp [fillLoop, hm, hr]
        have e2 : fillLoop (g :: rest) =
            ((fillLoop rest).1, (fillLoop rest).2.1, g.label :: (fillLoop rest).2.2) := by
          simp [fillLoop, hm, hr]
        rw [e1, e2, ih hsub]
        simp
      · have e1 : fillLoop (g :: (rest ++ t)) = fillLoop (rest ++ t) := by
          simp [fillLoop, hm, hr]
        have e2 : fillLoop (g :: rest) = fillLoop rest := by
          simp [fillLoop, hm, hr]
        rw [e1, e2, ih hsub]

/-- Claim C3: (1) the loop fails only because of a mapped, attempted,
required field whose interaction raised; (2) when no attempted interaction
raises, the loop always reaches SUBMITTING and every required-but-unmapped
field is recorded in `missingFields`; (3) a required, mapped,
non-skipped field whose interaction raises makes the job FAILED and no
later field is attempted. -/
theorem fill_loop_required_policy :
    (∀ (fields : List FillField), (fillLoop fields).1 = JobState.failed →
      ∃ f ∈ fields, f.mapped = true ∧ f.disabled = false ∧ f.hidden = false ∧
        f.raisesError = true ∧ f.required = true) ∧
    (∀ (fields : List FillField),
      (∀ f ∈ fields, f.mapped = true → f.disabled = false → f.hidden = false →
        f.raisesError = false) →
      (fillLoop fields).1 = JobState.submitting ∧
        ∀ f ∈ fields, f.required = true → f.mapped = false →
          f.label ∈ (fillLoop fields).2.2) ∧
    (∀ (l₁ : List FillField) (f : FillField) (l₂ : List FillField),
      f.required = true → f.mapped = true → f.disabled = false → f.hidden = false →
      f.raisesError = true → (fillLoop l₁).1 = JobState.submitting →
      fillLoop (l₁ ++ f :: l₂) =
        (JobState.failed, (fillLoop l₁).2.1 ++ [f.label], (fillLoop l₁).2.2)) := by
  refine ⟨?_, ?_, ?_⟩
  · intro fields
    induction fields with
    | nil => intro h; simp [fillLoop] at h
    | cons f rest ih =>
      intro h
      by_cases hm : f.mapped = true
      · by_cases hd : f.disabled = true
        · simp only [fillLoop, hm, hd] at h
          simp at h
          rcases ih h with ⟨g, hg, hprops⟩
          exact ⟨g, by simp [hg], hprops⟩
        · by_cases hh : f.hidden = true
          · simp only [fillLoop, hm, hd, hh] at h
            simp at h
            rcases ih h with ⟨g, hg, hprops⟩
            exact ⟨g, by simp [hg], hprops⟩
          · by_cases he : f.raisesError = true
            · by_cases hr : f.required = true
              · exact ⟨f, by simp, hm, by simp at hd; exact hd, by simp at hh; exact hh, he, hr⟩
              · simp only [fillLoop, hm, hd, hh, he, hr] at h
                simp [hr] at h
                rcases ih h with ⟨g, hg, hprops⟩
                exact ⟨g, by simp [hg], hprops⟩
            · simp only [fillLoop, hm, hd, hh, he] at h
              simp [he] at h
              rcases ih h with ⟨g, hg, hprops⟩
              exact ⟨g, by simp [hg], hprops⟩
      · simp only [fillLoop, hm] at h
        simp [hm] at h
        rcases ih h with ⟨g, hg, hprops⟩
        exact ⟨g, by simp [hg], hprops⟩
  · intro fields
    induction fields with
    | nil => intro _; exact ⟨rfl, by simp⟩
    | cons f rest ih =>
      intro h
      have hrest := ih (fun g hg hgm hgd hgh => h g (by simp [hg]) hgm hgd hgh)
      by_cases hm : f.mapped = true
      · by_cases hd : f.disabled = true
        · refine ⟨by simp [fillLoop, hm, hd, hrest.1], ?_⟩
          intro g hg hgr hgm
          rcases List.mem_cons.1 hg with heq | hgt
          · subst heq; rw [hm] at hgm; exact absurd hgm (by simp)
          · simpa [fillLoop, hm, hd] using hrest.2 g hgt hgr hgm
        · by_cases hh : f.hidden = true
          · refine ⟨by simp [fillLoop, hm, hd, hh, hrest.1], ?_⟩
            intro g hg hgr hgm
            rcases List.mem_cons.1 hg with heq | hgt
            · subst heq; rw [hm] at hgm; exact absurd hgm (by simp)
            · simpa [fillLoop, hm, hd, hh] using hrest.2 g hgt hgr hgm
          · have hne : f.raisesError = false :=
              h f (by simp) hm (by simpa using hd) (by simpa using hh)
            refine ⟨by simp [fillLoop, hm, hd, hh, hne, hrest.1], ?_⟩
            intro g hg hgr hgm
            rcases List.mem_cons.1 hg with heq | hgt
            · subst heq; rw [hm] at hgm; exact absurd hgm (by simp)
            · simpa [fillLoop, hm, hd, hh, hne] using hrest.2 g hgt hgr hgm
      · refine ⟨by simp [fillLoop, hm, hrest.1], ?_⟩
        intro g hg hgr hgm
        rcases List.mem_cons.1 hg with heq | hgt
        · subst heq
          simp [fillLoop, hgm, hgr]
        · have := hrest.2 g hgt hgr hgm
          by_cases hr : f.required = true <;> simp [fillLoop, hm, hr, this]
  · intro l₁ f l₂ hr hm hd hh he hsub
    rw [fillLoop_append l₁ (f :: l₂) hsub]
    have hf : fillLoop (f :: l₂) = (JobState.failed, [f.label], []) := by
      simp [fillLoop, hm, hd, hh, he, hr]
    rw [hf]
    simp

theorem fill_loop_required_policy_witness :
    (fillLoop ([ffOk] ++ ffBad :: [ffLater]) =
      (JobState.failed, (fillLoop [ffOk]).2.1 ++ [ffBad.label], (fillLoop [ffOk]).2.2)) ∧
    ((fillLoop [ffUnmapped, ffOk]).1 = JobState.submitting ∧
      ∀ f ∈ [ffUnmapped, ffOk], f.required = true → f.mapped = false →
        f.label ∈ (fillLoop [ffUnmapped, ffOk]).2.2) :=
  ⟨fill_loop_required_policy.2.2 [ffOk] ffBad [ffLater] rfl rfl rfl rfl rfl (by decide),
    fill_loop_required_policy.2.1 [ffUnmapped, ffOk] (by decide)⟩

/-- Claim C4: the type-priority sort returns a permutation of the field
list, ordered so that priorities never decrease — hence all text-like
fields come strictly before any radio-group, radio-groups before
checkbox-groups, then selects, dates, react-selects, files — and the
priority table realizes exactly that chain. -/
theorem sort_groups_by_type_priority (fields : List DetectedField) :
    (sortByTypePriority fields).Perm fields ∧
    List.Pairwise (fun a b => typePriority a.type ≤ typePriority b.type)
      (sortByTypePriority fields) ∧
    (typePriority "text" < typePriority "radio-group" ∧
      typePriority "radio-group" < typePriority "checkbox-group" ∧
      typePriority "checkbox-group" < typePriority "select" ∧
      typePriority "select" < typePriority "date" ∧
      typePriority "date" < typePriority "react-select" ∧
      typePriority "react-select" < typePriority "file" ∧
      typePriority "email" = typePriority "text" ∧
      typePriority "phone" = typePriority "text" ∧
      typePriority "textarea" = typePriority "text" ∧
      typePriority "date-picker" = typePriority "date") := by
  refine ⟨List.mergeSort_perm fields _, ?_, by decide⟩
  unfold sortByTypePriority
  refine List.Pairwise.imp ?_
    (List.sorted_mergeSort
      (fun a b c hab hbc => by
        simp only [decide_eq_true_eq] at hab hbc ⊢
        omega)
      (fun a b => by
        simp only [Bool.or_eq_true, decide_eq_true_eq]
        omega)
      fields)
  intro a b hab
  simpa using hab

/-! ## Claim C8: inspector label-map invariants -/

lemma jsSet_mapinv (m : List (String × DetectedField)) (k : String) (v : DetectedField)
    (h : MapInvP m) (hk : k ≠ "") (hv : v.label = k) : MapInvP (jsSet m k v) := by
  constructor
  · intro kv hkv
    rcases jsSet_mem m k v kv hkv with h2 | h2
    · exact h.1 kv h2
    · subst h2; exact ⟨hk, hv⟩
  · exact jsSet_fst_nodup m k v h.2

lemma strat0Step_mapinv (m : List (String × DetectedField)) (q : GQuestion)
    (h : MapInvP m) : MapInvP (strat0Step m q) := by
  unfold strat0Step
  cases hsel : q.selector with
  | none => exact h
  | some sel =>
    by_cases hl : q.labelText = ""
    · simpa [hl] using h
    · simp only [bne_iff_ne, ne_eq, hl, not_false_eq_true, if_true]
      exact jsSet_mapinv m _ _ h hl rfl

lemma strat05Step_mapinv (m : List (String × DetectedField)) (g : NGroup)
    (h : MapInvP m) : MapInvP (strat05Step m g) := by
  unfold strat05Step
  by_cases hn : g.name = ""
  · simpa [hn] using h
  · by_cases hr : g.resolvedLabel = ""
    · simp only [hr]
      simp only [bne_iff_ne, ne_eq, hn, not_false_eq_true, if_true, not_true_eq_false, if_false]
      exact jsSet_mapinv m _ _ h hn rfl
    · simp only [bne_iff_ne, ne_eq, hn, hr, not_false_eq_true, if_true]
      exact jsSet_mapinv m _ _ h hr rfl

lemma strat1Step_mapinv (m : List (String × DetectedField)) (i : GInput)
    (h : MapInvP m) : MapInvP (strat1Step m i) := by
  unfold strat1Step
  by_cases hl : i.labelText = ""
  · simpa [hl] using h
  · by_cases hhas : (m.any (fun p => p.1 == i.labelText)) = true
    · simpa [hl, hhas] using h
    · simp only [bne_iff_ne, ne_eq, hl, not_false_eq_true, if_true, hhas, Bool.false_eq_true,
        if_false]
      exact jsSet_mapinv m _ _ h hl rfl

lemma strat0Fold_mapinv (qs : List GQuestion) :
    ∀ (m : List (String × DetectedField)), MapInvP m → MapInvP (strat0Fold m qs) := by
  induction qs with
  | nil => intro m h; exact h
  | cons q t ih => intro m h; exact ih _ (strat0Step_mapinv m q h)

lemma strat05Fold_mapinv (gs : List NGroup) :
    ∀ (m : List (String × DetectedField)), MapInvP m → MapInvP (strat05Fold m gs) := by
  induction gs with
  | nil => intro m h; exact h
  | cons g t ih => intro m h; exact ih _ (strat05Step_mapinv m g h)

lemma strat1Fold_mapinv (is : List GInput) :
    ∀ (m : List (String × DetectedField)), MapInvP m → MapInvP (strat1Fold m is) := by
  induction is with
  | nil => intro m h; exact h
  | cons i t ih => intro m h; exact ih _ (strat1Step_mapinv m i h)

lemma strat1Step_mem (m : List (String × DetectedField)) (i : GInput)
    (kv : String × DetectedField) (h : kv ∈ m) : kv ∈ strat1Step m i := by
  unfold strat1Step
  by_cases hl : i.labelText = ""
  · simpa [hl] using h
  · by_cases hhas : (m.any (fun p => p.1 == i.labelText)) = true
    · simpa [hl, hhas] using h
    · have hhas2 : (m.any (fun p => p.1 == i.labelText)) = false := by
        revert hhas
        cases m.any (fun p => p.1 == i.labelText) <;> simp
      simp only [bne_iff_ne, ne_eq, hl, not_false_eq_true, if_true, hhas, Bool.false_eq_true,
        if_false]
      rw [jsSet_eq_append_of_absent m _ _ hhas2]
      exact List.mem_append_left _ h

lemma strat1Fold_mem (is : List GInput) :
    ∀ (m : List (String × DetectedField)) (kv : String × DetectedField),
      kv ∈ m → kv ∈ strat1Fold m is := by
  induction is with
  | nil => intro m kv h; exact h
  | cons i t ih => intro m kv h; exact ih _ kv (strat1Step_mem m i kv h)

/-- Claim C8, amended: within one discovery pass every emitted label is
non-empty and labels are pairwise distinct; the *generic-scan* strategy
never overwrites an earlier entry (every binding present after strategies
0 and 0.5 survives), but strategies 0 and 0.5 set unconditionally, so an
entry added by an earlier strategy can be replaced (last-seen-wins). -/
theorem inspector_label_map_invariants (p : PageSnapshot) :
    (∀ f ∈ inspectForm p, f.label ≠ "") ∧
    ((inspectForm p).map DetectedField.label).Nodup ∧
    (∀ kv ∈ mapAfterStrat05 p, kv ∈ finalFieldMap p) := by
  have hinv : MapInvP (finalFieldMap p) := by
    apply strat1Fold_mapinv
    apply strat05Fold_mapinv
    apply strat0Fold_mapinv
    exact ⟨by simp, by simp⟩
  refine ⟨?_, ?_, ?_⟩
  · intro f hf
    unfold inspectForm at hf
    rcases List.mem_map.1 hf with ⟨kv, hkv, hsnd⟩
    rw [← hsnd, (hinv.1 kv hkv).2]
    exact (hinv.1 kv hkv).1
  · unfold inspectForm
    rw [List.map_map]
    have : (finalFieldMap p).map (DetectedField.label ∘ Prod.snd) =
        (finalFieldMap p).map Prod.fst := by
      apply List.map_congr_left
      intro kv hkv
      exact (hinv.1 kv hkv).2
    rw [this]
    exact hinv.2
  · intro kv hkv
    exact strat1Fold_mem p.gInputs (mapAfterStrat05 p) kv hkv

/-- Claim C8 counterexample: the Google-question strategy stores a
"Gender" entry, and the later native-group strategy *overwrites* it (the
stored field's selector and required flag change), so "an entry added by
an earlier strategy is never overwritten by a later strategy" is false. -/
theorem inspector_overwrite_cex :
    List.lookup "Gender" (strat0Fold [] snapC8.gQuestions) =
      some { label := "Gender", type := "radio-group", required := true,
             selector := "div[role=\"listitem\"]:nth-of-type(1)" } ∧
    List.lookup "Gender" (finalFieldMap snapC8) =
      some { label := "Gender", type := "radio-group", required := false,
             selector := "#genderWrapper" } ∧
    List.lookup "Gender" (finalFieldMap snapC8) ≠
      List.lookup "Gender" (strat0Fold [] snapC8.gQuestions) := by
  refine ⟨by decide, by decide, by decide⟩

theorem inspector_label_map_invariants_witness :
    (⟨"Gender", { label := "Gender", type := "radio-group", required := false,
                  selector := "#genderWrapper" }⟩ ∈ mapAfterStrat05 snapC8) ∧
    (⟨"Gender", { label := "Gender", type := "radio-group", required := false,
                  selector := "#genderWrapper" }⟩ ∈ finalFieldMap snapC8) :=
  ⟨by decide,
    (inspector_label_map_invariants snapC8).2.2 _ (by decide)⟩

/-! ## Claim C2: acceptance threshold and tie-break -/

lemma chooseStep_beat (field : MField) (acc : Option String × Int) (key : String)
    (h : acc.2 < computeScore field key) :
    chooseStep field acc key = (some key, computeScore field key) := by
  unfold chooseStep
  simp [h]

lemma chooseStep_nobeat (field : MField) (acc : Option String × Int) (key : String)
    (h : ¬ acc.2 < computeScore field key) :
    chooseStep field acc key = acc := by
  unfold chooseStep
  simp
  omega

lemma chooseFold_snd (field : MField) :
    ∀ (keys : List String) (acc : Option String × Int),
      (keys.foldl (chooseStep field) acc).2 =
        keys.foldl (fun m k => max m (computeScore field k)) acc.2 := by
  intro keys
  induction keys with
  | nil => intro acc; rfl
  | cons k t ih =>
    intro acc
    rw [List.foldl_cons, List.foldl_cons, ih]
    congr 1
    unfold chooseStep
    by_cases h : acc.2 < computeScore field k
    · simp [h]
      omega
    · simp [h]
      omega

lemma foldl_max_lt (field : MField) :
    ∀ (keys : List String) (s0 K : Int),
      s0 < K → (∀ k ∈ keys, computeScore field k < K) →
      keys.foldl (fun m k => max m (computeScore field k)) s0 < K := by
  intro keys
  induction keys with
  | nil => intro s0 K h _; exact h
  | cons k t ih =>
    intro s0 K h hall
    rw [List.foldl_cons]
    exact ih _ _ (by have := hall k (by simp); omega) (fun k2 hk2 => hall k2 (by simp [hk2]))

lemma chooseFold_nobeat (field : MField) :
    ∀ (keys : List String) (acc : Option String × Int),
      (∀ k ∈ keys, computeScore field k ≤ acc.2) →
      keys.foldl (chooseStep field) acc = acc := by
  intro keys
  induction keys with
  | nil => intro acc _; rfl
  | cons k t ih =>
    intro acc h
    rw [List.foldl_cons]
    have hk : computeScore field k ≤ acc.2 := h k (by simp)
    have e : chooseStep field acc k = acc := by
      unfold chooseStep
      simp
      omega
    rw [e]
    exact ih acc (fun k2 hk2 => h k2 (by simp [hk2]))

/-- Last-update decomposition of the best-key fold. -/
lemma chooseFold_spec (field : MField) :
    ∀ (keys : List String) (acc : Option String × Int),
      (keys.foldl (chooseStep field) acc = acc ∧
        ∀ k ∈ keys, computeScore field k ≤ acc.2) ∨
      (∃ l₁ k l₂, keys = l₁ ++ k :: l₂ ∧
        keys.foldl (chooseStep field) acc = (some k, computeScore field k) ∧
        acc.2 < computeScore field k ∧
        (∀ k2 ∈ l₁, computeScore field k2 < computeScore field k) ∧
        (∀ k2 ∈ l₂, computeScore field k2 ≤ computeScore field k)) := by
  intro keys
  induction keys with
  | nil => intro acc; exact Or.inl ⟨rfl, by simp⟩
  | cons key t ih =>
    intro acc
    by_cases hbeat : acc.2 < computeScore field key
    · have estep : chooseStep field acc key = (some key, computeScore field key) := by
        unfold chooseStep
        simp [hbeat]
      rcases ih (some key, computeScore field key) with ⟨heq, hall⟩ | ⟨l₁, k, l₂, hdec, hres, hgt, hl₁, hl₂⟩
      · refine Or.inr ⟨[], key, t, by simp, ?_, hbeat, by simp, ?_⟩
        · rw [List.foldl_cons, estep, heq]
        · intro k2 hk2
          simpa using hall k2 hk2
      · refine Or.inr ⟨key :: l₁, k, l₂, by simp [hdec], ?_, ?_, ?_, hl₂⟩
        · rw [List.foldl_cons, estep, hres]
        · simp at hgt
          omega
        · intro k2 hk2
          rcases List.mem_cons.1 hk2 with he | hk2t
          · subst he
            simp at hgt
            omega
          · exact hl₁ k2 hk2t
    · have estep : chooseStep field acc key = acc := by
        unfold chooseStep
        simp
        omega
      rcases ih acc with ⟨heq, hall⟩ | ⟨l₁, k, l₂, hdec, hres, hgt, hl₁, hl₂⟩
      · refine Or.inl ⟨?_, ?_⟩
        · rw [List.foldl_cons, estep, heq]
        · intro k2 hk2
          rcases List.mem_cons.1 hk2 with he | hk2t
          · subst he; omega
          · exact hall k2 hk2t
      · refine Or.inr ⟨key :: l₁, k, l₂, by simp [hdec], ?_, hgt, ?_, hl₂⟩
        · rw [List.foldl_cons, estep, hres]
        · intro k2 hk2
          rcases List.mem_cons.1 hk2 with he | hk2t
          · subst he; omega
          · exact hl₁ k2 hk2t

/-- Claim C2: a field maps to key `k` iff `k` is, in caller key order, the
first key attaining the maximum score and that score is at least the
threshold 40 — so a best pair scoring exactly 40 maps, a best pair
scoring 39 does not, the winner is the highest-scoring key, and the first
key wins ties. -/
theorem mapper_threshold_and_tiebreak (field : MField) (keys : List String) (k : String) :
    fieldChoice field keys = some k ↔
      ∃ l₁ l₂, keys = l₁ ++ k :: l₂ ∧ 40 ≤ computeScore field k ∧
        (∀ k2 ∈ l₁, computeScore field k2 < computeScore field k) ∧
        (∀ k2 ∈ l₂, computeScore field k2 ≤ computeScore field k) := by
  constructor
  · intro h
    unfold fieldChoice chooseBest at h
    rcases chooseFold_spec field keys (none, 0) with ⟨heq, _⟩ | ⟨l₁, k0, l₂, hdec, hres, hgt, hl₁, hl₂⟩
    · rw [heq] at h
      simp at h
    · rw [hres] at h
      simp only at h
      by_cases h40 : 40 ≤ computeScore field k0
      · rw [if_pos h40] at h
        have hk : k0 = k := by simpa using h
        subst hk
        exact ⟨l₁, l₂, hdec, h40, hl₁, hl₂⟩
      · rw [if_neg h40] at h
        simp at h
  · rintro ⟨l₁, l₂, rfl, h40, hl₁, hl₂⟩
    unfold fieldChoice chooseBest
    have hmax : (l₁.foldl (chooseStep field) ((none : Option String), (0 : Int))).2 <
        computeScore field k := by
      rw [chooseFold_snd]
      exact foldl_max_lt field l₁ 0 (computeScore field k) (by omega) hl₁
    rw [List.foldl_append, List.foldl_cons, chooseStep_beat field _ k hmax,
      chooseFold_nobeat field l₂ _ (by simpa using hl₂)]
    simp [h40]

end FormAutomation
